import Mathlib

/-!
Shallow embedding of `rumbo_http_client` (src/lib.rs): request building
(`HttpClient::build_request`), scheme dispatch in `HttpClient::fetch`, and
response parsing (`Response::parse`, `Response::parse_status_line`,
`Response::is_success`, `Response::header`).

Strings are modelled as `List Char`; Rust standard-library string operations
(`split`, `lines`, `split_whitespace`, `trim`, `split_once`, `to_lowercase`,
`u16::from_str`) are embedded as executable Lean functions below.
-/

/-- Rust strings are modelled as lists of characters. -/
abbrev Str := List Char

/-- Unicode `White_Space` test, as used by Rust `char::is_whitespace`
(and hence by `str::split_whitespace` and `str::trim`). -/
def isRustWhitespace (c : Char) : Bool :=
  let n := c.toNat
  (Nat.ble 9 n && Nat.ble n 13) || n == 32 || n == 0x85 || n == 0xA0 ||
  n == 0x1680 || (Nat.ble 0x2000 n && Nat.ble n 0x200A) ||
  n == 0x2028 || n == 0x2029 || n == 0x202F || n == 0x205F || n == 0x3000

/-- Embeds Rust `str::split("\r\n\r\n")`: accumulator-based scan producing the
pieces between non-overlapping left-to-right occurrences of `CRLFCRLF`. -/
def splitCRLFCRLFGo : Str → Str → List Str
  | '\r' :: '\n' :: '\r' :: '\n' :: rest, acc => acc.reverse :: splitCRLFCRLFGo rest []
  | c :: rest, acc => splitCRLFCRLFGo rest (c :: acc)
  | [], acc => [acc.reverse]

/-- All pieces of the input split on the separator `CRLFCRLF`, in order;
the model of `response.split("\r\n\r\n")` collected into a list. -/
def splitCRLFCRLF (s : Str) : List Str := splitCRLFCRLFGo s []

/-- Everything after the first occurrence of `CRLFCRLF`, or `none` if the
separator does not occur.  This follows the spec's words: "the body ... is
exactly the bytes following the first blank-line separator (CRLFCRLF)". -/
def afterCRLFCRLF : Str → Option Str
  | '\r' :: '\n' :: '\r' :: '\n' :: rest => some rest
  | _ :: rest => afterCRLFCRLF rest
  | [] => none

/-- Embeds the `\n`-splitting underlying Rust `str::lines`. -/
def splitLFGo : Str → Str → List Str
  | '\n' :: rest, acc => acc.reverse :: splitLFGo rest []
  | c :: rest, acc => splitLFGo rest (c :: acc)
  | [], acc => [acc.reverse]

/-- Removes one trailing carriage return, as Rust `lines` does per line. -/
def stripTrailingCR (l : Str) : Str :=
  if l.getLast? = some '\r' then l.dropLast else l

/-- Embeds Rust `str::lines`: split on `'\n'`, drop the final empty piece
(the final line ending is optional), strip one trailing `'\r'` per line. -/
def rustLines (s : Str) : List Str :=
  let ps := splitLFGo s []
  (if ps.getLast? = some [] then ps.dropLast else ps).map stripTrailingCR

/-- Splitting scan for `str::split_whitespace`. -/
def splitWsGo : Str → Str → List Str
  | c :: rest, acc =>
    if isRustWhitespace c then acc.reverse :: splitWsGo rest []
    else splitWsGo rest (c :: acc)
  | [], acc => [acc.reverse]

/-- Embeds Rust `str::split_whitespace`: whitespace-delimited tokens, with no
empty tokens. -/
def splitWhitespace (s : Str) : List Str :=
  (splitWsGo s []).filter (fun t => !t.isEmpty)

/-- Embeds Rust `str::trim`: drop Unicode whitespace from both ends. -/
def rustTrim (s : Str) : Str :=
  ((s.dropWhile isRustWhitespace).reverse.dropWhile isRustWhitespace).reverse

/-- ASCII lower-casing of one character (the fragment of Rust
`str::to_lowercase` relevant to ASCII header names). -/
def asciiToLower (c : Char) : Char :=
  if 'A' ≤ c ∧ c ≤ 'Z' then Char.ofNat (c.toNat + 32) else c

/-- Embeds Rust `str::to_lowercase` (ASCII fragment). -/
def toLowercase (s : Str) : Str := s.map asciiToLower

/-- Embeds Rust `str::split_once(c)`: split at the first occurrence of `c`
into the parts before and after it, or `none` when `c` does not occur. -/
def splitOnceChar (c : Char) : Str → Option (Str × Str)
  | [] => none
  | x :: xs =>
    if x = c then some ([], xs)
    else (splitOnceChar c xs).map (fun p => (x :: p.1, p.2))

/-- Numeric value of an ASCII digit character. -/
def digitVal (c : Char) : Nat := c.toNat - 48

/-- Embeds Rust `str::parse::<u16>` (`u16::from_str`): an optional leading
`'+'`, then one or more ASCII digits; fails on an empty digit string, any
non-digit, or a value exceeding `u16::MAX = 65535`. -/
def parseU16 (s : Str) : Option Nat :=
  let ds := match s with
    | '+' :: rest => rest
    | _ => s
  if ds.isEmpty then none
  else if ds.all (fun c => c.isDigit) then
    let v := ds.foldl (fun acc c => acc * 10 + digitVal c) 0
    if v < 65536 then some v else none
  else none

/-- Decimal digit characters. -/
def digitChar : Nat → Char
  | 0 => '0' | 1 => '1' | 2 => '2' | 3 => '3' | 4 => '4'
  | 5 => '5' | 6 => '6' | 7 => '7' | 8 => '8' | 9 => '9'
  | _ => '*'

/-- Fuelled decimal rendering loop (the fuel is always sufficient). -/
def natToStrGo : Nat → Nat → Str → Str
  | 0, _, acc => acc
  | fuel + 1, n, acc =>
    if n < 10 then digitChar n :: acc
    else natToStrGo fuel (n / 10) (digitChar (n % 10) :: acc)

/-- Embeds the decimal `Display` rendering Rust's `format!("{}", n)` uses for
`usize` values such as `json_body.len()`. -/
def natToStr (n : Nat) : Str := natToStrGo (n + 1) n []

/-- Embeds Rust `String::len`: the UTF-8 byte length of a string. -/
def utf8Len (s : Str) : Nat := s.foldl (fun a c => a + c.utf8Size) 0

/-- The header map: Rust `HashMap<String, String>` observed through `insert`
and `get`, modelled as an association list where insertion replaces any
previous binding of the key. -/
def insertHeader (k v : Str) (m : List (Str × Str)) : List (Str × Str) :=
  (k, v) :: m.filter (fun p => !(p.1 == k))

/-- `HashMap::get` on the association-list model. -/
def lookupHeader (k : Str) : List (Str × Str) → Option Str
  | [] => none
  | (k2, v) :: rest => if k2 = k then some v else lookupHeader k rest

/-- The errors `Response::parse` can produce (`anyhow` contexts in the
source): missing headers section, missing status line, fewer than two
status-line tokens, or a status token that fails `u16` parsing. -/
inductive ParseErr where
  | missingHeaders
  | missingStatusLine
  | invalidStatusLineFormat
  | failedParseStatusCode
deriving DecidableEq, Repr

/-- The `Response` struct: numeric status, header map, optional body. -/
structure Response where
  status : Nat
  headers : List (Str × Str)
  body : Option Str
deriving DecidableEq, Repr

namespace Response

/-- Embeds `Response::parse_status_line`: split the line on whitespace;
fewer than two tokens is an error; otherwise parse the second token as
`u16`. -/
def parse_status_line (status_line : Str) : Except ParseErr Nat :=
  match splitWhitespace status_line with
  | _ :: second :: _ =>
    match parseU16 second with
    | some v => Except.ok v
    | none => Except.error ParseErr.failedParseStatusCode
  | _ => Except.error ParseErr.invalidStatusLineFormat

/-- One header line of `Response::parse`'s loop: `split_once(':')`; on a hit
insert the trimmed lower-cased name with the trimmed value, otherwise skip
the line. -/
def headerStep (m : List (Str × Str)) (line : Str) : List (Str × Str) :=
  match splitOnceChar ':' line with
  | some (k, v) => insertHeader (toLowercase (rustTrim k)) (rustTrim v) m
  | none => m

/-- The header loop of `Response::parse` over the non-status lines. -/
def parseHeaders (ls : List Str) : List (Str × Str) := ls.foldl headerStep []

/-- Embeds `Response::parse`: split on `CRLFCRLF`; the first piece is the
headers section (its absence is the "Missing headers section" error), the
second piece — if present and non-empty — is the body; the first line of the
headers section is the status line, the remaining lines feed the header
loop. -/
def parse (response : Str) : Except ParseErr Response :=
  match splitCRLFCRLF response with
  | [] => Except.error ParseErr.missingHeaders
  | headers_section :: parts_rest =>
    let body : Option Str :=
      match parts_rest.head? with
      | some s => if s.isEmpty then none else some s
      | none => none
    match rustLines headers_section with
    | [] => Except.error ParseErr.missingStatusLine
    | status_line :: header_lines =>
      match parse_status_line status_line with
      | Except.error e => Except.error e
      | Except.ok status => Except.ok ⟨status, parseHeaders header_lines, body⟩

/-- Embeds `Response::is_success`: `(200..300).contains(&self.status)`. -/
def is_success (r : Response) : Bool :=
  decide (200 ≤ r.status) && decide (r.status < 300)

/-- Embeds `Response::header`: look the lower-cased name up in the map. -/
def header (r : Response) (name : Str) : Option Str :=
  lookupHeader (toLowercase name) r.headers

end Response

/-- The five error kinds of `HttpError` (messages elided; no claim concerns
the message text). -/
inductive HttpErrorKind where
  | invalidUrl
  | connectionFailed
  | tlsError
  | requestFailed
  | responseParseError
deriving DecidableEq, Repr

/-- The two supported methods. -/
inductive HttpMethod where
  | GET
  | POST
deriving DecidableEq, Repr

namespace HttpClient

/-- The GET wire format of `HttpClient::build_request`. -/
def getRequest (host full_path : Str) : Str :=
  "GET ".toList ++ full_path ++ " HTTP/1.1\r\nHost: ".toList ++ host ++
  "\r\nUser-Agent: mini-http-client/0.1.0\r\nConnection: close\r\n\r\n".toList

/-- The POST wire format of `HttpClient::build_request`, given the serialized
JSON body text. -/
def postRequest (host full_path json_body : Str) : Str :=
  "POST ".toList ++ full_path ++ " HTTP/1.1\r\nHost: ".toList ++ host ++
  "\r\nUser-Agent: mini-http-client/0.1.0\r\nContent-Type: application/json\r\nContent-Length: ".toList ++
  natToStr (utf8Len json_body) ++ "\r\nConnection: close\r\n\r\n".toList ++
  json_body

/-- Embeds `HttpClient::build_request`.  The body argument stands for an
optional `serde::Serialize` value, observed through the outcome of
`serde_json::to_string` on it: `Except.ok` is the serialized JSON text,
`Except.error` a serialization failure (which the source maps to
`HttpError::RequestFailed`). -/
def build_request (method : HttpMethod) (host full_path : Str)
    (body : Option (Except String Str)) : Except HttpErrorKind Str :=
  match method with
  | HttpMethod.GET => Except.ok (getRequest host full_path)
  | HttpMethod.POST =>
    match body with
    | none => Except.ok (postRequest host full_path [])
    | some (Except.ok json_body) => Except.ok (postRequest host full_path json_body)
    | some (Except.error _) => Except.error HttpErrorKind.requestFailed

/-- The first step `HttpClient::fetch` takes for a given scheme. -/
inductive FetchStep where
  | connectThenRequest
  | connectThenTlsHandshake
  | fail (e : HttpErrorKind)
deriving DecidableEq, Repr

/-- Embeds the scheme dispatch of `HttpClient::fetch` (the `match scheme`
after URL parsing).  `tlsEnabled` stands for `cfg(feature = "tls")`: with it,
`"https"` connects and then performs the TLS handshake; without it, `"https"`
fails at once with `TlsError` and no connection is attempted.  `"http"`
connects in plaintext; any other scheme fails with `InvalidUrl`, no I/O
attempted. -/
def fetchSchemeDispatch (tlsEnabled : Bool) (scheme : Str) : FetchStep :=
  if scheme = "https".toList then
    (if tlsEnabled then FetchStep.connectThenTlsHandshake
     else FetchStep.fail HttpErrorKind.tlsError)
  else if scheme = "http".toList then FetchStep.connectThenRequest
  else FetchStep.fail HttpErrorKind.invalidUrl

end HttpClient

/-- Decidable equality of parse outcomes, for concrete evaluation. -/
instance {ε α : Type} [DecidableEq ε] [DecidableEq α] : DecidableEq (Except ε α) :=
  fun a b =>
    match a, b with
    | Except.ok x, Except.ok y =>
      if h : x = y then isTrue (by rw [h]) else isFalse (fun hh => h (Except.ok.inj hh))
    | Except.error x, Except.error y =>
      if h : x = y then isTrue (by rw [h]) else isFalse (fun hh => h (Except.error.inj hh))
    | Except.ok _, Except.error _ => isFalse (fun hh => Except.noConfusion hh)
    | Except.error _, Except.ok _ => isFalse (fun hh => Except.noConfusion hh)

/-- The headers section `Response::parse` works on: the first piece of the
split on `CRLFCRLF`. -/
def headersSection (s : Str) : Str := (splitCRLFCRLF s).headD []

/-- The status of a parsed response, `none` on a parse error. -/
def parsedStatus (e : Except ParseErr Response) : Option Nat :=
  match e with
  | Except.ok r => some r.status
  | Except.error _ => none

/-- Whether a parse outcome is an error. -/
def parseIsErr (e : Except ParseErr Response) : Bool :=
  match e with
  | Except.ok _ => false
  | Except.error _ => true

/-- The condition under which `Response.parse` fails: the headers section has
no lines, or its first line has fewer than two whitespace tokens, or the
second token fails `u16` parsing. -/
def parseFailCond (s : Str) : Bool :=
  match rustLines (headersSection s) with
  | [] => true
  | line :: _ =>
    match splitWhitespace line with
    | _ :: second :: _ => (parseU16 second).isNone
    | _ => true

example : Response.parse "HTTP/1.1 200 OK\r\nContent-Type: application/json\r\nContent-Length: 13\r\n\r\nBODYTEXT".toList
    = Except.ok ⟨200, [("content-length".toList, "13".toList), ("content-type".toList, "application/json".toList)], some "BODYTEXT".toList⟩ := by
  decide

/-! ## Helper lemmas about the split on CRLFCRLF -/

theorem splitCRLFCRLFGo_ne_nil (s acc : Str) : splitCRLFCRLFGo s acc ≠ [] := by
  induction s, acc using splitCRLFCRLFGo.induct with
  | case1 rest acc ih => simp [splitCRLFCRLFGo]
  | case2 c rest acc h ih =>
    rw [splitCRLFCRLFGo.eq_def]
    split
    · simp
    · rename_i heq; injection heq with e1 e2; subst e1; subst e2; exact ih
    · simp
  | case3 acc => simp [splitCRLFCRLFGo]

theorem splitCRLFCRLF_ne_nil (s : Str) : splitCRLFCRLF s ≠ [] :=
  splitCRLFCRLFGo_ne_nil s []

theorem splitCRLFCRLF_eq_cons (s : Str) :
    splitCRLFCRLF s = headersSection s :: (splitCRLFCRLF s).tail := by
  rcases h : splitCRLFCRLF s with _ | ⟨a, t⟩
  · exact absurd h (splitCRLFCRLF_ne_nil s)
  · simp [headersSection, h]

/-! ## Helper lemmas about the first occurrence of CRLFCRLF -/

theorem afterCRLFCRLF_cons (c : Char) (b : Str) (hc : c ≠ '\r') :
    afterCRLFCRLF (c :: b) = afterCRLFCRLF b := by
  rw [afterCRLFCRLF.eq_def]
  split
  · rename_i h; injection h with h1 _; exact absurd h1 hc
  · rename_i h; injection h with _ h2; rw [h2]
  · rename_i h; simp at h

theorem afterCRLFCRLF_append (xs b : Str) (h : ∀ x ∈ xs, x ≠ '\r') :
    afterCRLFCRLF (xs ++ b) = afterCRLFCRLF b := by
  induction xs with
  | nil => rfl
  | cons x t ih =>
    rw [List.cons_append, afterCRLFCRLF_cons x (t ++ b) (h x (by simp))]
    exact ih (fun y hy => h y (by simp [hy]))

theorem afterCRLFCRLF_crlf (c : Char) (b : Str) (hc : c ≠ '\r') :
    afterCRLFCRLF ('\r' :: '\n' :: c :: b) = afterCRLFCRLF (c :: b) := by
  rw [afterCRLFCRLF.eq_def]
  split
  · rename_i h
    injection h with _ h; injection h with _ h; injection h with h1 _
    exact absurd h1 hc
  · rename_i h
    injection h with _ h2
    rw [← h2, afterCRLFCRLF_cons '\n' (c :: b) (by decide)]
  · rename_i h; simp at h

theorem afterCRLFCRLF_seg (c : Char) (seg b : Str) (hc : c ≠ '\r')
    (hseg : ∀ x ∈ seg, x ≠ '\r') :
    afterCRLFCRLF ('\r' :: '\n' :: c :: (seg ++ b)) = afterCRLFCRLF b := by
  rw [afterCRLFCRLF_crlf c (seg ++ b) hc, afterCRLFCRLF_cons c (seg ++ b) hc]
  exact afterCRLFCRLF_append seg b hseg

theorem afterCRLFCRLF_sep (b : Str) :
    afterCRLFCRLF ('\r' :: '\n' :: '\r' :: '\n' :: b) = some b := rfl

/-! ## Helper lemmas about split_once, the header map, and digits -/

theorem splitOnceChar_eq_none (c : Char) (l : Str) (h : ∀ x ∈ l, x ≠ c) :
    splitOnceChar c l = none := by
  induction l with
  | nil => rfl
  | cons x t ih =>
    rw [splitOnceChar, if_neg (h x (by simp)), ih (fun y hy => h y (by simp [hy]))]
    rfl

theorem splitOnceChar_first (c : Char) (pre post : Str) (h : ∀ x ∈ pre, x ≠ c) :
    splitOnceChar c (pre ++ c :: post) = some (pre, post) := by
  induction pre with
  | nil => simp [splitOnceChar]
  | cons x t ih =>
    rw [List.cons_append, splitOnceChar, if_neg (h x (by simp)),
      ih (fun y hy => h y (by simp [hy]))]
    rfl

theorem lookupHeader_insert_self (k v : Str) (m : List (Str × Str)) :
    lookupHeader k (insertHeader k v m) = some v := by
  simp [insertHeader, lookupHeader]

theorem lookupHeader_filter_ne (k k2 : Str) (m : List (Str × Str)) (h : k2 ≠ k) :
    lookupHeader k2 (m.filter (fun p => !(p.1 == k))) = lookupHeader k2 m := by
  induction m with
  | nil => rfl
  | cons p t ih =>
    rcases p with ⟨pk, pv⟩
    by_cases hpk : pk = k
    · subst hpk
      rw [List.filter_cons_of_neg (by simp), lookupHeader, if_neg (fun hh => h hh.symm), ih]
    · rw [List.filter_cons_of_pos (by simpa using hpk), lookupHeader, lookupHeader]
      by_cases hpk2 : pk = k2
      · rw [if_pos hpk2, if_pos hpk2]
      · rw [if_neg hpk2, if_neg hpk2, ih]

theorem lookupHeader_insert_other (k k2 v : Str) (m : List (Str × Str)) (h : k2 ≠ k) :
    lookupHeader k2 (insertHeader k v m) = lookupHeader k2 m := by
  rw [insertHeader, lookupHeader, if_neg (fun hh => h hh.symm)]
  exact lookupHeader_filter_ne k k2 m h

theorem digitChar_ne_cr (d : Nat) : digitChar d ≠ '\r' := by
  unfold digitChar; split <;> decide

theorem natToStrGo_mem (fuel n : Nat) (acc : Str) :
    ∀ x ∈ natToStrGo fuel n acc, x ∈ acc ∨ ∃ d, x = digitChar d := by
  induction fuel generalizing n acc with
  | zero => intro x hx; exact Or.inl hx
  | succ f ih =>
    intro x hx
    rw [natToStrGo] at hx
    by_cases hn : n < 10
    · rw [if_pos hn] at hx
      rcases List.mem_cons.mp hx with hx1 | hx1
      · exact Or.inr ⟨n, hx1⟩
      · exact Or.inl hx1
    · rw [if_neg hn] at hx
      rcases ih (n / 10) (digitChar (n % 10) :: acc) x hx with hx2 | hx2
      · rcases List.mem_cons.mp hx2 with hx3 | hx3
        · exact Or.inr ⟨n % 10, hx3⟩
        · exact Or.inl hx3
      · exact Or.inr hx2

theorem natToStr_ne_cr (n : Nat) : ∀ x ∈ natToStr n, x ≠ '\r' := by
  intro x hx
  rcases natToStrGo_mem (n + 1) n [] x hx with hx2 | ⟨d, hd⟩
  · simp at hx2
  · rw [hd]; exact digitChar_ne_cr d

/-! ## Unfolding Response.parse once the split is known -/

theorem parse_of_split (s hs : Str) (rest : List Str)
    (h : splitCRLFCRLF s = hs :: rest) :
    Response.parse s =
      match rustLines hs with
      | [] => Except.error ParseErr.missingStatusLine
      | status_line :: header_lines =>
        match Response.parse_status_line status_line with
        | Except.error e => Except.error e
        | Except.ok status =>
          Except.ok ⟨status, Response.parseHeaders header_lines,
            match rest.head? with
            | some b => if b.isEmpty then none else some b
            | none => none⟩ := by
  unfold Response.parse
  rw [h]

theorem parse_status_line_error_cases (l : Str) (e : ParseErr)
    (h : Response.parse_status_line l = Except.error e) :
    e = ParseErr.invalidStatusLineFormat ∨ e = ParseErr.failedParseStatusCode := by
  unfold Response.parse_status_line at h
  split at h
  · split at h
    · exact absurd h (by simp)
    · exact Or.inr (Except.error.inj h).symm
  · exact Or.inl (Except.error.inj h).symm

/-! ## Claim theorems -/

/-- C10 (confirmed): splitting any string on `CRLFCRLF` always yields at
least one piece, so the "Missing headers section" failure branch of
`Response.parse` is unreachable: no input makes `parse` return that error. -/
theorem headers_section_always_present :
    (∀ s : Str, splitCRLFCRLF s ≠ []) ∧
    (∀ s : Str, Response.parse s ≠ Except.error ParseErr.missingHeaders) := by
  refine ⟨splitCRLFCRLF_ne_nil, fun s => ?_⟩
  rw [parse_of_split s (headersSection s) (splitCRLFCRLF s).tail (splitCRLFCRLF_eq_cons s)]
  split
  · simp
  · split
    · rename_i e heq
      intro hcontra
      rcases parse_status_line_error_cases _ _ heq with h2 | h2 <;>
        · rw [h2] at hcontra
          exact ParseErr.noConfusion (Except.error.inj hcontra)
    · simp

/-- C8 (confirmed): `is_success` is true exactly on the half-open interval
`[200, 300)`; in particular 199 and 300 give `false`, 200 and 299 `true`. -/
theorem is_success_iff_2xx :
    (∀ r : Response, r.is_success = true ↔ 200 ≤ r.status ∧ r.status < 300) ∧
    Response.is_success ⟨199, [], none⟩ = false ∧
    Response.is_success ⟨200, [], none⟩ = true ∧
    Response.is_success ⟨299, [], none⟩ = true ∧
    Response.is_success ⟨300, [], none⟩ = false := by
  refine ⟨fun r => ?_, by decide, by decide, by decide, by decide⟩
  simp [Response.is_success]

/-- C9 (confirmed): `build_request` with method GET ignores the body
argument entirely: the output is identical for any two body arguments (in
particular for `none` versus any `some`, including a body whose
serialization would fail), and a GET build always succeeds with the fixed
GET wire format. -/
theorem get_request_ignores_body :
    (∀ (host fp : Str) (b1 b2 : Option (Except String Str)),
      HttpClient.build_request HttpMethod.GET host fp b1 =
        HttpClient.build_request HttpMethod.GET host fp b2) ∧
    (∀ (host fp : Str) (b : Option (Except String Str)),
      HttpClient.build_request HttpMethod.GET host fp b =
        Except.ok (HttpClient.getRequest host fp)) :=
  ⟨fun _ _ _ _ => rfl, fun _ _ _ => rfl⟩

/-- C2 (code_bug): the source comment says the body is "everything after
first `\r\n\r\n`", but the code takes only the second piece of the split,
truncating a body that itself contains `CRLFCRLF`: on
`"HTTP/1.1 200 OK\r\n\r\nA\r\n\r\nB"` the parsed body is `"A"` while the
text following the first separator is `"A\r\n\r\nB"`. -/
theorem body_truncated_at_second_separator :
    Response.parse "HTTP/1.1 200 OK\r\n\r\nA\r\n\r\nB".toList =
      Except.ok ⟨200, [], some "A".toList⟩ ∧
    afterCRLFCRLF "HTTP/1.1 200 OK\r\n\r\nA\r\n\r\nB".toList =
      some "A\r\n\r\nB".toList := by
  exact ⟨by decide, by decide⟩

/-- C7 (confirmed): the scheme dispatch of `fetch` opens a plaintext
connection for `"http"`; for `"https"` without TLS compiled in it fails at
once with `TlsError` (no connection step); for every other scheme (e.g.
`"ftp"`) it fails with `InvalidUrl`. -/
theorem fetch_scheme_dispatch :
    (∀ t : Bool, HttpClient.fetchSchemeDispatch t "http".toList =
      HttpClient.FetchStep.connectThenRequest) ∧
    HttpClient.fetchSchemeDispatch false "https".toList =
      HttpClient.FetchStep.fail HttpErrorKind.tlsError ∧
    (∀ (t : Bool) (scheme : Str), scheme ≠ "http".toList → scheme ≠ "https".toList →
      HttpClient.fetchSchemeDispatch t scheme =
        HttpClient.FetchStep.fail HttpErrorKind.invalidUrl) ∧
    (∀ t : Bool, HttpClient.fetchSchemeDispatch t "ftp".toList =
      HttpClient.FetchStep.fail HttpErrorKind.invalidUrl) := by
  refine ⟨fun t => by cases t <;> decide, by decide, ?_, fun t => by cases t <;> decide⟩
  intro t scheme h1 h2
  rw [HttpClient.fetchSchemeDispatch, if_neg h2, if_neg h1]

/-- C7 witness: the unsupported-scheme arm applied to the concrete scheme
`"ftp"`. -/
theorem fetch_scheme_dispatch_witness :
    HttpClient.fetchSchemeDispatch true "ftp".toList =
      HttpClient.FetchStep.fail HttpErrorKind.invalidUrl :=
  fetch_scheme_dispatch.2.2.1 true "ftp".toList (by decide) (by decide)

/-- C1 counterexample: `"99999"` is a decimal numeral (non-empty, all
digits) and is the second whitespace token of the status line, yet parsing
fails — the parser does not accept every non-negative integer. -/
theorem status_99999_rejected :
    (splitWhitespace "HTTP/1.1 99999 OK".toList).getD 1 [] = "99999".toList ∧
    "99999".toList.all Char.isDigit = true ∧
    Response.parse "HTTP/1.1 99999 OK".toList =
      Except.error ParseErr.failedParseStatusCode := by
  exact ⟨by decide, by decide, by decide⟩

/-- C4 (confirmed): the GET request for host `example.com` and path `/get`
is exactly the expected bytes: first line `GET /get HTTP/1.1`, CRLF line
endings, exactly the header lines `Host`, `User-Agent`, `Connection: close`
(so no `Content-Length` or `Content-Type`), and nothing after the final
blank line (no body). -/
theorem get_request_wire_format :
    HttpClient.build_request HttpMethod.GET "example.com".toList "/get".toList none =
      Except.ok "GET /get HTTP/1.1\r\nHost: example.com\r\nUser-Agent: mini-http-client/0.1.0\r\nConnection: close\r\n\r\n".toList ∧
    splitCRLFCRLF (HttpClient.getRequest "example.com".toList "/get".toList) =
      ["GET /get HTTP/1.1\r\nHost: example.com\r\nUser-Agent: mini-http-client/0.1.0\r\nConnection: close".toList,
       []] ∧
    rustLines "GET /get HTTP/1.1\r\nHost: example.com\r\nUser-Agent: mini-http-client/0.1.0\r\nConnection: close".toList =
      ["GET /get HTTP/1.1".toList, "Host: example.com".toList,
       "User-Agent: mini-http-client/0.1.0".toList, "Connection: close".toList] := by
  exact ⟨by decide, by decide, by decide⟩

/-- C1 (amended, proved): whenever the second whitespace token of the first
header-section line parses as a `u16` (optional leading `+`, decimal digits,
value at most 65535), `Response.parse` succeeds and returns that value as
the status. -/
theorem status_token_u16_accepted (s line pre t : Str) (toks ls : List Str) (v : Nat)
    (hl : rustLines (headersSection s) = line :: ls)
    (ht : splitWhitespace line = pre :: t :: toks)
    (hv : parseU16 t = some v) :
    parsedStatus (Response.parse s) = some v := by
  rw [parse_of_split s (headersSection s) (splitCRLFCRLF s).tail (splitCRLFCRLF_eq_cons s)]
  simp only [hl, Response.parse_status_line, ht, hv, parsedStatus]

/-- C1 witness: the accepted-status theorem applied to the concrete input
`"HTTP/1.1 200 OK"`. -/
theorem status_token_u16_accepted_witness :
    parsedStatus (Response.parse "HTTP/1.1 200 OK".toList) = some 200 :=
  status_token_u16_accepted "HTTP/1.1 200 OK".toList "HTTP/1.1 200 OK".toList
    "HTTP/1.1".toList "200".toList ["OK".toList] [] 200
    (by decide) (by decide) (by decide)

/-- C6 (amended, proved): `Response.parse` fails exactly when the headers
section has no lines (missing status line), or its first line has fewer
than two whitespace tokens, or the second token fails `u16` parsing; and
empty input fails with the missing-status-line error. -/
theorem parse_failure_characterization :
    (∀ s : Str, parseIsErr (Response.parse s) = parseFailCond s) ∧
    Response.parse [] = Except.error ParseErr.missingStatusLine := by
  refine ⟨fun s => ?_, by decide⟩
  rw [parse_of_split s (headersSection s) (splitCRLFCRLF s).tail (splitCRLFCRLF_eq_cons s),
    parseFailCond]
  cases hl : rustLines (headersSection s) with
  | nil => simp [parseIsErr]
  | cons line ls =>
    unfold Response.parse_status_line
    cases ht : splitWhitespace line with
    | nil => simp [ht, parseIsErr]
    | cons a ts =>
      cases ts with
      | nil => simp [ht, parseIsErr]
      | cons t ts2 =>
        cases hv : parseU16 t with
        | none => simp [ht, hv, parseIsErr]
        | some v => simp [ht, hv, parseIsErr]

/-- C5 (confirmed): each header line is split at its first colon; the name
is trimmed and lower-cased, the value trimmed; a line without a colon
leaves the map unchanged (silently skipped); inserting an existing key
overwrites its value (last occurrence wins) and leaves other keys alone;
and `Response.header` looks up the lower-cased query name, making lookup
case-insensitive. -/
theorem header_parsing_and_lookup :
    (∀ (m : List (Str × Str)) (line : Str), (∀ c ∈ line, c ≠ ':') →
      Response.headerStep m line = m) ∧
    (∀ (m : List (Str × Str)) (pre post : Str), (∀ c ∈ pre, c ≠ ':') →
      Response.headerStep m (pre ++ ':' :: post) =
        insertHeader (toLowercase (rustTrim pre)) (rustTrim post) m) ∧
    (∀ (m : List (Str × Str)) (k v : Str),
      lookupHeader k (insertHeader k v m) = some v) ∧
    (∀ (m : List (Str × Str)) (k k2 v : Str), k2 ≠ k →
      lookupHeader k2 (insertHeader k v m) = lookupHeader k2 m) ∧
    (∀ (r : Response) (name : Str),
      Response.header r name = lookupHeader (toLowercase name) r.headers) := by
  refine ⟨?_, ?_, ?_, ?_, fun r name => rfl⟩
  · intro m line h
    rw [Response.headerStep, splitOnceChar_eq_none ':' line h]
  · intro m pre post h
    rw [Response.headerStep, splitOnceChar_first ':' pre post h]
  · exact fun m k v => lookupHeader_insert_self k v m
  · exact fun m k k2 v h => lookupHeader_insert_other k k2 v m h

/-- C5 witness: the header-handling theorem at concrete lines — a colonless
line is skipped, `Content-Type: text/html` is split, trimmed, lower-cased,
a duplicate key is overwritten, and other keys are untouched. -/
theorem header_parsing_and_lookup_witness :
    Response.headerStep [] "no colon line".toList = [] ∧
    Response.headerStep [] ("Content-Type".toList ++ ':' :: " text/html".toList) =
      insertHeader (toLowercase (rustTrim "Content-Type".toList)) (rustTrim " text/html".toList) [] ∧
    lookupHeader "k".toList
      (insertHeader "k".toList "v2".toList [("k".toList, "v1".toList)]) = some "v2".toList ∧
    lookupHeader "a".toList (insertHeader "k".toList "v".toList []) =
      lookupHeader "a".toList [] :=
  ⟨header_parsing_and_lookup.1 [] _ (by decide),
   header_parsing_and_lookup.2.1 [] _ _ (by decide),
   header_parsing_and_lookup.2.2.1 _ _ _,
   header_parsing_and_lookup.2.2.2.1 [] _ _ _ (by decide)⟩

/-- The POST request re-associated so each CRLF and the following capital
letter are explicit; proved equal to the source wire format. -/
theorem postRequest_shape (host fp j : Str) :
    HttpClient.postRequest host fp j =
      "POST ".toList ++ fp ++ " HTTP/1.1".toList ++
      ('\r' :: '\n' :: 'H' :: "ost: ".toList) ++ host ++
      ('\r' :: '\n' :: 'U' :: "ser-Agent: mini-http-client/0.1.0".toList) ++
      ('\r' :: '\n' :: 'C' :: "ontent-Type: application/json".toList) ++
      ('\r' :: '\n' :: 'C' :: "ontent-Length: ".toList) ++ natToStr (utf8Len j) ++
      ('\r' :: '\n' :: 'C' :: "onnection: close".toList) ++
      ('\r' :: '\n' :: '\r' :: '\n' :: j) := by
  have e2 : " HTTP/1.1\r\nHost: ".toList =
      " HTTP/1.1".toList ++ ('\r' :: '\n' :: 'H' :: "ost: ".toList) := by decide
  have e3 : "\r\nUser-Agent: mini-http-client/0.1.0\r\nContent-Type: application/json\r\nContent-Length: ".toList =
      ('\r' :: '\n' :: 'U' :: "ser-Agent: mini-http-client/0.1.0".toList) ++
      ('\r' :: '\n' :: 'C' :: "ontent-Type: application/json".toList) ++
      ('\r' :: '\n' :: 'C' :: "ontent-Length: ".toList) := by decide
  have e4 : "\r\nConnection: close\r\n\r\n".toList =
      ('\r' :: '\n' :: 'C' :: "onnection: close".toList) ++
      ('\r' :: '\n' :: '\r' :: '\n' :: ([] : Str)) := by decide
  rw [HttpClient.postRequest, e2, e3, e4]
  simp [List.append_assoc]

/-- C3 (confirmed): building a POST request serializes the body to JSON
text (the empty string when no body is supplied), produces a
`Content-Length` header whose value is the decimal rendering of the UTF-8
byte length of that JSON text, a `Content-Type: application/json` header,
and a payload after the first blank-line separator equal to the JSON text
exactly.  The host and path are assumed free of carriage returns, as URL
parsing guarantees for `fetch`'s inputs. -/
theorem post_request_content_length_and_payload
    (host fp j : Str) (hh : ∀ c ∈ host, c ≠ '\r') (hp : ∀ c ∈ fp, c ≠ '\r') :
    HttpClient.build_request HttpMethod.POST host fp (some (Except.ok j)) =
      Except.ok (HttpClient.postRequest host fp j) ∧
    HttpClient.build_request HttpMethod.POST host fp none =
      Except.ok (HttpClient.postRequest host fp []) ∧
    afterCRLFCRLF (HttpClient.postRequest host fp j) = some j ∧
    (∃ u w, u ++ ("\r\nContent-Length: ".toList ++ natToStr (utf8Len j) ++ "\r\n".toList) ++ w =
      HttpClient.postRequest host fp j) ∧
    (∃ u w, u ++ "\r\nContent-Type: application/json\r\n".toList ++ w =
      HttpClient.postRequest host fp j) := by
  refine ⟨rfl, rfl, ?_, ?_, ?_⟩
  · rw [postRequest_shape host fp j]
    simp only [List.append_assoc, List.cons_append, List.nil_append]
    rw [afterCRLFCRLF_append "POST ".toList _ (by decide)]
    rw [afterCRLFCRLF_append fp _ hp]
    rw [afterCRLFCRLF_append " HTTP/1.1".toList _ (by decide)]
    rw [afterCRLFCRLF_seg 'H' "ost: ".toList _ (by decide) (by decide)]
    rw [afterCRLFCRLF_append host _ hh]
    rw [afterCRLFCRLF_seg 'U' "ser-Agent: mini-http-client/0.1.0".toList _ (by decide) (by decide)]
    rw [afterCRLFCRLF_seg 'C' "ontent-Type: application/json".toList _ (by decide) (by decide)]
    rw [afterCRLFCRLF_seg 'C' "ontent-Length: ".toList _ (by decide) (by decide)]
    rw [afterCRLFCRLF_append (natToStr (utf8Len j)) _ (natToStr_ne_cr (utf8Len j))]
    rw [afterCRLFCRLF_seg 'C' "onnection: close".toList _ (by decide) (by decide)]
    exact afterCRLFCRLF_sep j
  · refine ⟨"POST ".toList ++ fp ++ " HTTP/1.1\r\nHost: ".toList ++ host ++
      "\r\nUser-Agent: mini-http-client/0.1.0\r\nContent-Type: application/json".toList,
      "Connection: close\r\n\r\n".toList ++ j, ?_⟩
    have e5 : "\r\nUser-Agent: mini-http-client/0.1.0\r\nContent-Type: application/json\r\nContent-Length: ".toList =
        "\r\nUser-Agent: mini-http-client/0.1.0\r\nContent-Type: application/json".toList ++
        "\r\nContent-Length: ".toList := by decide
    have e6 : "\r\nConnection: close\r\n\r\n".toList =
        "\r\n".toList ++ "Connection: close\r\n\r\n".toList := by decide
    rw [HttpClient.postRequest, e5, e6]
    simp [List.append_assoc]
  · refine ⟨"POST ".toList ++ fp ++ " HTTP/1.1\r\nHost: ".toList ++ host ++
      "\r\nUser-Agent: mini-http-client/0.1.0".toList,
      "Content-Length: ".toList ++ natToStr (utf8Len j) ++
        "\r\nConnection: close\r\n\r\n".toList ++ j, ?_⟩
    have e7 : "\r\nUser-Agent: mini-http-client/0.1.0\r\nContent-Type: application/json\r\nContent-Length: ".toList =
        "\r\nUser-Agent: mini-http-client/0.1.0".toList ++
        "\r\nContent-Type: application/json\r\n".toList ++ "Content-Length: ".toList := by decide
    rw [HttpClient.postRequest, e7]
    simp [List.append_assoc]

/-- C3 witness: the POST theorem at a concrete host, path, and serialized
body. -/
theorem post_request_content_length_and_payload_witness :
    HttpClient.build_request HttpMethod.POST "h".toList "/p".toList (some (Except.ok "7".toList)) =
      Except.ok (HttpClient.postRequest "h".toList "/p".toList "7".toList) ∧
    afterCRLFCRLF (HttpClient.postRequest "h".toList "/p".toList "7".toList) =
      some "7".toList :=
  ⟨(post_request_content_length_and_payload "h".toList "/p".toList "7".toList
      (by decide) (by decide)).1,
   (post_request_content_length_and_payload "h".toList "/p".toList "7".toList
      (by decide) (by decide)).2.2.1⟩

/-- C6 counterexample: a status line with at least two whitespace tokens
whose second token is numeric (non-empty, all digits) on which parsing
nevertheless fails — refuting "the parser never fails for any other
structural reason". -/
theorem parse_fails_on_numeric_overflow_token :
    2 ≤ (splitWhitespace "HTTP/1.1 70000 Go".toList).length ∧
    ((splitWhitespace "HTTP/1.1 70000 Go".toList).getD 1 []).all Char.isDigit = true ∧
    ((splitWhitespace "HTTP/1.1 70000 Go".toList).getD 1 []).isEmpty = false ∧
    parseIsErr (Response.parse "HTTP/1.1 70000 Go".toList) = true := by
  exact ⟨by decide, by decide, by decide, by decide⟩
